import Mathlib

/-!
Verification of `pdf-to-speech/pdf_reader.py`.

The program is a sequential CLI pipeline: extract text from a PDF, pick a
voice and configure a text-to-speech engine, then either speak the text live
or save it to a `.wav` file.  We embed the program shallowly:

* a `Voice` mirrors the platform voice descriptors returned by
  `engine.getProperty("voices")` (the `languages` and `gender` attributes may
  be absent, which `getattr` defaults to `[]` resp. `""`);
* `initialize_engine` mirrors the voice-selection loop plus the rate/volume
  configuration;
* `extract_text_from_pdf` works on the list of per-page extracted strings;
* `main` is modelled as a pure function from an environment (argv, file
  existence, page texts, user input at the confirmation prompt, and an
  optional point at which a `KeyboardInterrupt` is raised) to the trace of
  observable actions together with a flag telling whether an exception
  escaped the program uncaught.
-/

/-- Python `str.lower()` (ASCII case folding, which covers every string the
program compares). -/
def strLower (s : String) : String := String.mk (s.data.map Char.toLower)

/-- Occurrence of `needle` as a contiguous sublist of the second argument. -/
def containsSub (needle : List Char) : List Char → Bool
  | [] => needle.isEmpty
  | c :: t => needle.isPrefixOf (c :: t) || containsSub needle t

/-- Python `needle in hay` on strings. -/
def strContainsSub (hay needle : String) : Bool :=
  containsSub needle.data hay.data

/-- A platform voice descriptor.  `languages` and `gender` are `Option`s
because the corresponding Python attributes may be missing. -/
structure Voice where
  id : String
  name : String
  languages : Option (List String)
  gender : Option String
deriving Repr, DecidableEq

/-- The fixed identifiers the program recognises as female voice names. -/
def femaleNames : List String := ["zira", "susan", "serena", "hazel"]

/-- The search loop of `initialize_engine`: scans the voices in enumeration
order and returns the id of the first one with an English language tag and a
female gender or a known female name; `none` when no voice qualifies. -/
def findEnglishFemaleVoice : List Voice → Option String
  | [] => none
  | v :: rest =>
    let languages := v.languages.getD []
    let lang_is_english := languages.any (fun lang => strContainsSub (strLower lang) "en")
    let gender := strLower (v.gender.getD "")
    let name := strLower v.name
    let is_female_by_name := femaleNames.any (fun fem_name => strContainsSub name fem_name)
    if lang_is_english && (gender == "female" || is_female_by_name) then some v.id
    else findEnglishFemaleVoice rest

/-- The engine configuration produced by `initialize_engine`: the selected
voice id (`none` means the platform default voice is kept, no voice property
is set), the rate and the volume. -/
structure EngineConfig where
  voiceId : Option String
  rate : ℤ
  volume : ℚ
deriving Repr, DecidableEq

/-- `initialize_engine()`: runs the voice search and always sets
`rate := 150` and `volume := 0.9`. -/
def initialize_engine (voices : List Voice) : EngineConfig :=
  { voiceId := findEnglishFemaleVoice voices, rate := 150, volume := 9/10 }

/-- Spec wording: case-insensitive substring containment. -/
def caseInsensContains (hay needle : String) : Bool :=
  strContainsSub (strLower hay) (strLower needle)

/-- Spec wording for the language match: some reported language tag contains
the substring "en" case-insensitively; absent language info means no match. -/
def specLangMatch (v : Voice) : Bool :=
  match v.languages with
  | none => false
  | some tags => tags.any (fun tag => caseInsensContains tag "en")

/-- Spec wording for the gender match: reported gender equals "female"
case-insensitively, or the display name contains one of the known
female-voice identifiers as a case-insensitive substring. -/
def specGenderMatch (v : Voice) : Bool :=
  (match v.gender with
   | none => false
   | some g => strLower g == strLower "female")
  || femaleNames.any (fun n => caseInsensContains v.name n)

/-- Spec wording: a voice qualifies when both matches hold. -/
def specVoiceMatch (v : Voice) : Bool :=
  specLangMatch v && specGenderMatch v

theorem strLower_en : strLower "en" = "en" := rfl

theorem strLower_female : strLower "female" = "female" := rfl

theorem strLower_empty : strLower "" = "" := rfl

theorem strLower_zira : strLower "zira" = "zira" := rfl

theorem strLower_susan : strLower "susan" = "susan" := rfl

theorem strLower_serena : strLower "serena" = "serena" := rfl

theorem strLower_hazel : strLower "hazel" = "hazel" := rfl

theorem code_cond_eq_specVoiceMatch (v : Voice) :
    ((v.languages.getD []).any (fun lang => strContainsSub (strLower lang) "en")
      && ((strLower (v.gender.getD "") == "female")
          || femaleNames.any (fun fem_name => strContainsSub (strLower v.name) fem_name)))
    = specVoiceMatch v := by
  cases hl : v.languages <;> cases hg : v.gender <;>
    simp [specVoiceMatch, specLangMatch, specGenderMatch, caseInsensContains,
      hl, hg, femaleNames, Option.getD, strLower_en, strLower_female, strLower_empty,
      strLower_zira, strLower_susan, strLower_serena, strLower_hazel]

/-- **C1.** Voice selection picks the first voice, in enumeration order,
whose language matches (some reported tag contains "en" case-insensitively;
absent language info means no match) and whose gender matches (reported
gender equals "female" case-insensitively, or the display name contains
"zira", "susan", "serena" or "hazel" case-insensitively); when no voice
satisfies both, `voiceId` is `none` and the platform default voice is used. -/
theorem voice_selection_first_match (voices : List Voice) :
    (initialize_engine voices).voiceId = (voices.find? specVoiceMatch).map Voice.id := by
  unfold initialize_engine
  induction voices with
  | nil => rfl
  | cons v rest ih =>
    rw [List.find?]
    rw [findEnglishFemaleVoice]
    simp only []
    rw [code_cond_eq_specVoiceMatch v]
    cases h : specVoiceMatch v with
    | true => simp [h]
    | false => simpa [h] using ih

/-- **C5.** After `initialize_engine`, the rate is 150 and the volume is 0.9
for every voice list, whether or not a voice matched. -/
theorem rate_and_volume_always_set (voices : List Voice) :
    (initialize_engine voices).rate = 150 ∧ (initialize_engine voices).volume = 9/10 :=
  ⟨rfl, rfl⟩

/-- The whitespace characters stripped by Python `str.strip()` (the ASCII
ones, which cover every string the program handles). -/
def pyIsSpace (c : Char) : Bool :=
  c = ' ' || c = '\t' || c = '\n' || c = '\x0b' || c = '\x0c' || c = '\r'

/-- `not full_text.strip()`: true iff the string is empty or whitespace-only. -/
def stripIsEmpty (s : String) : Bool := s.data.all pyIsSpace

/-- Python `"".join` of a list of strings: plain concatenation in order. -/
def concatAll : List String → String
  | [] => ""
  | s :: rest => s ++ concatAll rest

/-- `extract_text_from_pdf`: joins the extracted text of the pages whose text
is truthy (non-empty), and returns `none` — the no-text signal — when the
result is empty or whitespace-only.  A page is represented by its extracted
text. -/
def extract_text_from_pdf (pages : List String) : Option String :=
  let full_text := concatAll (pages.filter (fun p => !(p == "")))
  if stripIsEmpty full_text then none else some full_text

theorem empty_append_str (s : String) : "" ++ s = s := rfl

theorem concatAll_filter_truthy (pages : List String) :
    concatAll (pages.filter (fun p => !(p == ""))) = concatAll pages := by
  induction pages with
  | nil => rfl
  | cons p rest ih =>
    by_cases hp : p = ""
    · subst hp
      simp [concatAll, List.filter_cons, ih, empty_append_str]
    · simp [concatAll, List.filter_cons, hp, ih]

theorem extract_eq_of_not_ws (pages : List String)
    (h : stripIsEmpty (concatAll pages) = false) :
    extract_text_from_pdf pages = some (concatAll pages) := by
  simp only [extract_text_from_pdf, concatAll_filter_truthy, h]
  simp

theorem concatAll_ne_empty_of_not_ws (pages : List String)
    (h : stripIsEmpty (concatAll pages) = false) :
    concatAll pages ≠ "" := by
  intro he
  rw [he] at h
  simp [stripIsEmpty] at h

/-- **C2 (counterexample).** A one-page PDF whose page text is the non-empty
string " " has a page with extractable text, yet extraction returns the
no-text signal instead of the (non-empty) concatenation " ". -/
theorem extract_whitespace_counterexample :
    " " ≠ "" ∧ extract_text_from_pdf [" "] = none := by
  decide

/-- **C2 (amended).** For every PDF whose concatenated page text contains at
least one non-whitespace character, extraction returns exactly the
concatenation, in page order with no separator, of each page's extracted
text (pages with empty text contribute nothing), and that string is
non-empty. -/
theorem extract_concat_of_non_ws (pages : List String)
    (h : stripIsEmpty (concatAll pages) = false) :
    extract_text_from_pdf pages = some (concatAll pages) ∧ concatAll pages ≠ "" :=
  ⟨extract_eq_of_not_ws pages h, concatAll_ne_empty_of_not_ws pages h⟩

/-- Witness for `extract_concat_of_non_ws` at a concrete three-page PDF. -/
theorem extract_concat_of_non_ws_witness :
    stripIsEmpty (concatAll ["hello", "", " world"]) = false ∧
    (extract_text_from_pdf ["hello", "", " world"]
        = some (concatAll ["hello", "", " world"])
      ∧ concatAll ["hello", "", " world"] ≠ "") :=
  ⟨by decide, extract_concat_of_non_ws ["hello", "", " world"] (by decide)⟩

/-- Observable actions of a run: the prints and external calls that the
claims talk about. -/
inductive ProgAction where
  | printUsage
  | listVoicesCalled
  | printFileNotFound (path : String)
  | extractCalled (path : String)
  | printNoText
  | initEngineCalled
  | promptShown
  | sayCalled (text : String)
  | printSpeechCancelled
  | saveCalled (text : String) (file : String)
  | printInterrupted
deriving Repr, DecidableEq

/-- A point at which the user may raise a `KeyboardInterrupt`.  Every one of
these points lies inside the `try` block of `main`. -/
inductive InterruptPoint where
  | duringExtraction
  | duringEngineInit
  | duringPrompt
  | duringPlayback
  | duringSave
deriving Repr, DecidableEq

/-- `speak_text(engine, text)`: lowercases the response to the confirmation
prompt and speaks only when it equals "y".  The two Booleans say whether a
`KeyboardInterrupt` is raised while waiting at the prompt resp. during
playback; the returned flag is true when the call ends in that exception. -/
def speak_text (intAtPrompt intAtPlayback : Bool) (userInput text : String) :
    List ProgAction × Bool :=
  if intAtPrompt then ([ProgAction.promptShown], true)
  else
    let response := strLower userInput
    if response = "y" then
      if intAtPlayback then ([ProgAction.promptShown, ProgAction.sayCalled text], true)
      else ([ProgAction.promptShown, ProgAction.sayCalled text], false)
    else ([ProgAction.promptShown, ProgAction.printSpeechCancelled], false)

/-- `os.path.basename` for POSIX paths: the part after the last slash. -/
def basename (p : String) : String :=
  String.mk ((p.data.reverse.takeWhile (fun c => c != '/')).reverse)

/-- The root part of `os.path.splitext` applied to a slash-free basename:
drops the suffix starting at the last dot, provided some character before
that dot is not itself a dot (so dotfiles such as ".bashrc" keep their
name). -/
def splitextRoot (b : String) : String :=
  match b.data.reverse.dropWhile (fun c => c != '.') with
  | [] => b
  | _ :: before => if before.any (fun c => c != '.') then String.mk before.reverse else b

/-- The save-mode output name: `splitext(basename(file_path))[0] + ".wav"`. -/
def output_name (file_path : String) : String :=
  splitextRoot (basename file_path) ++ ".wav"

/-- `save_mode`: a second CLI argument is present and lowercases to "save". -/
def save_mode (argv : List String) : Bool :=
  decide (2 < argv.length) && decide (strLower (argv.getD 2 "") = "save")

/-- The environment of a run: the CLI arguments (`argv.head` is the program
name), whether the input path exists, the per-page extracted texts of the
PDF behind that path, the platform voices, the reply typed at the
confirmation prompt, and the point, if any, at which the user raises a
`KeyboardInterrupt`. -/
structure Env where
  argv : List String
  fileExists : Bool
  pdfPages : List String
  voices : List Voice
  userInput : String
  interruptAt : Option InterruptPoint
deriving Repr, DecidableEq

/-- The body of the `try` block of `main`: extraction, engine initialization,
then the save or speak branch.  Returns the actions performed and whether a
`KeyboardInterrupt` escaped the body. -/
def runTryBody (env : Env) (file_path : String) : List ProgAction × Bool :=
  if env.interruptAt = some InterruptPoint.duringExtraction then
    ([ProgAction.extractCalled file_path], true)
  else
    match extract_text_from_pdf env.pdfPages with
    | none => ([ProgAction.extractCalled file_path, ProgAction.printNoText], false)
    | some text =>
      if text = "" then ([ProgAction.extractCalled file_path], false)
      else if env.interruptAt = some InterruptPoint.duringEngineInit then
        ([ProgAction.extractCalled file_path, ProgAction.initEngineCalled], true)
      else
        let pre := [ProgAction.extractCalled file_path, ProgAction.initEngineCalled]
        if save_mode env.argv then
          if env.interruptAt = some InterruptPoint.duringSave then
            (pre ++ [ProgAction.saveCalled text (output_name file_path)], true)
          else
            (pre ++ [ProgAction.saveCalled text (output_name file_path)], false)
        else
          let r := speak_text (env.interruptAt = some InterruptPoint.duringPrompt)
            (env.interruptAt = some InterruptPoint.duringPlayback) env.userInput text
          (pre ++ r.1, r.2)

/-- `main()` (named `mainRun` because Lean reserves `main`): argument dispatch, the existence check, then the `try` block
with its `except KeyboardInterrupt` handler.  The Boolean result says
whether an exception escaped `main` uncaught (the handler makes it `false`
on every path). -/
def mainRun (env : Env) : List ProgAction × Bool :=
  if env.argv.length < 2 ∨ env.argv.getD 1 "" = "-h" ∨ env.argv.getD 1 "" = "--help" then
    ([ProgAction.printUsage], false)
  else
    let command := env.argv.getD 1 ""
    if command = "voices" then ([ProgAction.listVoicesCalled], false)
    else if !env.fileExists then ([ProgAction.printFileNotFound command], false)
    else
      let r := runTryBody env command
      if r.2 then (r.1 ++ [ProgAction.printInterrupted], false) else (r.1, false)

/-- **C3 (counterexample).** The input "Y" is a string other than the
lowercase "y", yet it proceeds to playback instead of cancelling: the
prompt handler lowercases the response before comparing it with "y". -/
theorem confirm_uppercase_counterexample :
    "Y" ≠ "y" ∧
    speak_text false false "Y" "hello"
      = ([ProgAction.promptShown, ProgAction.sayCalled "hello"], false) := by
  decide

/-- **C3 (amended).** The prompt proceeds to playback exactly when the input
lowercases to "y" (so "y" and "Y" proceed); every other input — "n", the
empty string, "yes" — cancels without invoking playback and without error. -/
theorem confirm_prompt_lowercase_y (input text : String) :
    speak_text false false input text
      = (if strLower input = "y"
         then ([ProgAction.promptShown, ProgAction.sayCalled text], false)
         else ([ProgAction.promptShown, ProgAction.printSpeechCancelled], false)) := by
  by_cases h : strLower input = "y" <;> simp [speak_text, h]

theorem str_data_append (a b : String) : (a ++ b).data = a.data ++ b.data := rfl

theorem basename_concat (dir name : String) (h : ∀ c ∈ name.data, c ≠ '/') :
    basename (dir ++ "/" ++ name) = name := by
  have hdata : (dir ++ "/" ++ name).data = dir.data ++ '/' :: name.data := by
    simp [str_data_append]
  unfold basename
  rw [hdata]
  have hrev : (dir.data ++ '/' :: name.data).reverse
      = name.data.reverse ++ '/' :: dir.data.reverse := by
    simp
  rw [hrev]
  have hall : ∀ c ∈ name.data.reverse, (c != '/') = true := by
    intro c hc
    simpa using h c (List.mem_reverse.mp hc)
  rw [List.takeWhile_append_of_pos hall]
  have : List.takeWhile (fun c => c != '/') ('/' :: dir.data.reverse) = [] := by
    simp [List.takeWhile_cons]
  rw [this]
  simp

theorem splitextRoot_concat (stem ext : String)
    (hstem : ∃ c ∈ stem.data, c ≠ '.')
    (hext : ∀ c ∈ ext.data, c ≠ '.') :
    splitextRoot (stem ++ "." ++ ext) = stem := by
  have hdata : (stem ++ "." ++ ext).data = stem.data ++ '.' :: ext.data := by
    simp [str_data_append]
  unfold splitextRoot
  rw [hdata]
  have hrev : (stem.data ++ '.' :: ext.data).reverse
      = ext.data.reverse ++ '.' :: stem.data.reverse := by
    simp
  rw [hrev]
  have hall : ∀ c ∈ ext.data.reverse, (c != '.') = true := by
    intro c hc
    simpa using hext c (List.mem_reverse.mp hc)
  rw [List.dropWhile_append_of_pos hall]
  have hdrop : List.dropWhile (fun c => c != '.') ('.' :: stem.data.reverse)
      = '.' :: stem.data.reverse := by
    simp [List.dropWhile_cons]
  rw [hdrop]
  have hany : stem.data.reverse.any (fun c => c != '.') = true := by
    obtain ⟨c, hc, hcne⟩ := hstem
    exact List.any_eq_true.mpr ⟨c, List.mem_reverse.mpr hc, by simpa using hcne⟩
  simp only [hany]
  simp

/-- **C6.** In save mode the output filename is the input's base filename
with its extension replaced by ".wav": for any directory prefix `dir` and a
basename `stem ++ "." ++ ext` (slash-free, with a non-dot character in the
stem and a dot-free, slash-free extension), the produced name is
`stem ++ ".wav"`, which contains no path separator — so it lands in the
current directory whatever directory the input file was in. -/
theorem save_output_filename (dir stem ext : String)
    (hstem_slash : ∀ c ∈ stem.data, c ≠ '/')
    (hstem_dot : ∃ c ∈ stem.data, c ≠ '.')
    (hext : ∀ c ∈ ext.data, c ≠ '.' ∧ c ≠ '/') :
    output_name (dir ++ "/" ++ (stem ++ "." ++ ext)) = stem ++ ".wav" ∧
    ∀ c ∈ (stem ++ ".wav").data, c ≠ '/' := by
  constructor
  · have hname_slash : ∀ c ∈ (stem ++ "." ++ ext).data, c ≠ '/' := by
      have hdata : (stem ++ "." ++ ext).data = stem.data ++ '.' :: ext.data := by
        simp [str_data_append]
      rw [hdata]
      intro c hc
      rcases List.mem_append.mp hc with h1 | h2
      · exact hstem_slash c h1
      · rcases List.mem_cons.mp h2 with h3 | h4
        · subst h3; decide
        · exact (hext c h4).2
    unfold output_name
    rw [basename_concat dir (stem ++ "." ++ ext) hname_slash,
      splitextRoot_concat stem ext hstem_dot (fun c hc => (hext c hc).1)]
  · intro c hc
    have hdata : (stem ++ ".wav").data = stem.data ++ ".wav".data := rfl
    rw [hdata] at hc
    rcases List.mem_append.mp hc with h1 | h2
    · exact hstem_slash c h1
    · simp only [show ".wav".data = ['.', 'w', 'a', 'v'] from rfl, List.mem_cons,
        List.not_mem_nil, or_false] at h2
      rcases h2 with rfl | rfl | rfl | rfl <;> decide

/-- Witness for `save_output_filename`: input `/home/user/docs/report.pdf`
produces `report.wav`. -/
theorem save_output_filename_witness :
    output_name ("/home/user/docs" ++ "/" ++ ("report" ++ "." ++ "pdf"))
      = "report" ++ ".wav" ∧
    ∀ c ∈ ("report" ++ ".wav").data, c ≠ '/' :=
  save_output_filename "/home/user/docs" "report" "pdf"
    (by decide) (by decide) (by decide)

theorem speak_text_no_escape (u t : String) :
    (speak_text false false u t).2 = false := by
  by_cases h : strLower u = "y" <;> simp [speak_text, h]

theorem extract_none_of_ws (pages : List String)
    (h : stripIsEmpty (concatAll pages) = true) :
    extract_text_from_pdf pages = none := by
  simp only [extract_text_from_pdf, concatAll_filter_truthy, h]
  simp

/-- **C4.** When the concatenated page text is empty or whitespace-only,
extraction returns the no-text signal, and the run stops right after the
extraction step: no engine initialization, no speech and no save action
appears in the trace. -/
theorem no_text_stops_run (env : Env) (prog fp : String)
    (hargv : env.argv = [prog, fp])
    (h1 : fp ≠ "-h") (h2 : fp ≠ "--help") (h3 : fp ≠ "voices")
    (hex : env.fileExists = true)
    (hint : env.interruptAt = none)
    (hws : stripIsEmpty (concatAll env.pdfPages) = true) :
    extract_text_from_pdf env.pdfPages = none ∧
    mainRun env = ([ProgAction.extractCalled fp, ProgAction.printNoText], false) := by
  have hn : extract_text_from_pdf env.pdfPages = none := extract_none_of_ws env.pdfPages hws
  refine ⟨hn, ?_⟩
  simp [mainRun, runTryBody, hargv, h1, h2, h3, hex, hint, hn]

/-- Witness for `no_text_stops_run` at a PDF whose pages yield "" and " ". -/
theorem no_text_stops_run_witness :
    extract_text_from_pdf ["", " "] = none ∧
    mainRun ⟨["prog", "empty.pdf"], true, ["", " "], [], "y", none⟩
      = ([ProgAction.extractCalled "empty.pdf", ProgAction.printNoText], false) :=
  no_text_stops_run ⟨["prog", "empty.pdf"], true, ["", " "], [], "y", none⟩
    "prog" "empty.pdf" rfl (by decide) (by decide) (by decide) rfl rfl (by decide)

/-- **C7.** When the input file does not exist, the run prints an error
naming the path and performs nothing else: no extraction, no engine
initialization, no playback and no save appear in the trace, and no
exception escapes. -/
theorem missing_file_no_action (env : Env) (prog fp : String)
    (hargv : env.argv = [prog, fp])
    (h1 : fp ≠ "-h") (h2 : fp ≠ "--help") (h3 : fp ≠ "voices")
    (hex : env.fileExists = false) :
    mainRun env = ([ProgAction.printFileNotFound fp], false) := by
  simp [mainRun, hargv, h1, h2, h3, hex]

/-- Witness for `missing_file_no_action` at a concrete missing path. -/
theorem missing_file_no_action_witness :
    mainRun ⟨["prog", "missing.pdf"], false, ["x"], [], "y", none⟩
      = ([ProgAction.printFileNotFound "missing.pdf"], false) :=
  missing_file_no_action ⟨["prog", "missing.pdf"], false, ["x"], [], "y", none⟩
    "prog" "missing.pdf" rfl (by decide) (by decide) (by decide) rfl

/-- **C8.** A `KeyboardInterrupt` raised during live playback is caught by
the top-level handler of `main`: the run ends with the clean interruption
message and the uncaught-exception flag is false. -/
theorem playback_interrupt_caught (env : Env) (prog fp : String)
    (hargv : env.argv = [prog, fp])
    (h1 : fp ≠ "-h") (h2 : fp ≠ "--help") (h3 : fp ≠ "voices")
    (hex : env.fileExists = true)
    (hws : stripIsEmpty (concatAll env.pdfPages) = false)
    (hy : strLower env.userInput = "y")
    (hint : env.interruptAt = some InterruptPoint.duringPlayback) :
    mainRun env
      = ([ProgAction.extractCalled fp, ProgAction.initEngineCalled,
          ProgAction.promptShown, ProgAction.sayCalled (concatAll env.pdfPages),
          ProgAction.printInterrupted], false) := by
  have hsome := extract_eq_of_not_ws env.pdfPages hws
  have hne := concatAll_ne_empty_of_not_ws env.pdfPages hws
  simp [mainRun, runTryBody, speak_text, save_mode, hargv, h1, h2, h3, hex, hint,
    hsome, hne, hy]

/-- Witness for `playback_interrupt_caught` at a concrete run. -/
theorem playback_interrupt_caught_witness :
    mainRun ⟨["prog", "f.pdf"], true, ["some text"], [], "y",
        some InterruptPoint.duringPlayback⟩
      = ([ProgAction.extractCalled "f.pdf", ProgAction.initEngineCalled,
          ProgAction.promptShown, ProgAction.sayCalled (concatAll ["some text"]),
          ProgAction.printInterrupted], false) :=
  playback_interrupt_caught
    ⟨["prog", "f.pdf"], true, ["some text"], [], "y", some InterruptPoint.duringPlayback⟩
    "prog" "f.pdf" rfl (by decide) (by decide) (by decide) rfl (by decide) (by decide) rfl

/-- **C9.** With a second CLI argument present, save mode is selected iff
that argument lowercases to "save" (so "SAVE" selects it); any other second
argument silently takes the live speak path — the confirmation prompt — and
never prints the usage text. -/
theorem second_arg_selects_save (env : Env) (prog fp arg2 : String)
    (hargv : env.argv = [prog, fp, arg2])
    (h1 : fp ≠ "-h") (h2 : fp ≠ "--help") (h3 : fp ≠ "voices")
    (hex : env.fileExists = true)
    (hint : env.interruptAt = none)
    (hws : stripIsEmpty (concatAll env.pdfPages) = false) :
    (save_mode env.argv = true ↔ strLower arg2 = "save") ∧
    mainRun env
      = (if strLower arg2 = "save"
         then ([ProgAction.extractCalled fp, ProgAction.initEngineCalled,
                ProgAction.saveCalled (concatAll env.pdfPages) (output_name fp)], false)
         else ([ProgAction.extractCalled fp, ProgAction.initEngineCalled] ++
                (speak_text false false env.userInput (concatAll env.pdfPages)).1,
               false)) := by
  have hsome := extract_eq_of_not_ws env.pdfPages hws
  have hne := concatAll_ne_empty_of_not_ws env.pdfPages hws
  constructor
  · simp [save_mode, hargv]
  · by_cases hsv : strLower arg2 = "save" <;>
      simp [mainRun, runTryBody, save_mode, hargv, h1, h2, h3, hex, hint,
        hsome, hne, hsv, speak_text_no_escape]

/-- Witness for `second_arg_selects_save` with the uppercase argument
"SAVE", which selects save mode. -/
theorem second_arg_selects_save_witness :
    (save_mode ["prog", "f.pdf", "SAVE"] = true ↔ strLower "SAVE" = "save") ∧
    mainRun ⟨["prog", "f.pdf", "SAVE"], true, ["some text"], [], "y", none⟩
      = (if strLower "SAVE" = "save"
         then ([ProgAction.extractCalled "f.pdf", ProgAction.initEngineCalled,
                ProgAction.saveCalled (concatAll ["some text"]) (output_name "f.pdf")],
               false)
         else ([ProgAction.extractCalled "f.pdf", ProgAction.initEngineCalled] ++
                (speak_text false false "y" (concatAll ["some text"])).1, false)) :=
  second_arg_selects_save
    ⟨["prog", "f.pdf", "SAVE"], true, ["some text"], [], "y", none⟩
    "prog" "f.pdf" "SAVE" rfl (by decide) (by decide) (by decide) rfl rfl (by decide)

/-- **C10.** Whenever the body of the `try` block — extraction, engine
initialization, the confirmation prompt, playback or the save call — ends in
a `KeyboardInterrupt`, `main` catches it with the same top-level handler:
the trace is the body's actions followed by the same clean interruption
message, and no exception escapes. -/
theorem interrupt_caught_anywhere (env : Env)
    (hlen : ¬ env.argv.length < 2)
    (h1 : env.argv.getD 1 "" ≠ "-h") (h2 : env.argv.getD 1 "" ≠ "--help")
    (h3 : env.argv.getD 1 "" ≠ "voices")
    (hex : env.fileExists = true)
    (hintr : (runTryBody env (env.argv.getD 1 "")).2 = true) :
    mainRun env
      = ((runTryBody env (env.argv.getD 1 "")).1 ++ [ProgAction.printInterrupted],
         false) := by
  simp only [List.getD, List.get?_eq_getElem?] at h1 h2 h3 hintr
  simp [mainRun, List.getD, hlen, h1, h2, h3, hex, hintr]

/-- Witness for `interrupt_caught_anywhere`: an interrupt raised during
extraction — a point other than live playback — is caught the same way. -/
theorem interrupt_caught_anywhere_witness :
    (runTryBody ⟨["prog", "f.pdf"], true, ["x"], [], "y",
        some InterruptPoint.duringExtraction⟩ "f.pdf").2 = true ∧
    mainRun ⟨["prog", "f.pdf"], true, ["x"], [], "y",
        some InterruptPoint.duringExtraction⟩
      = ((runTryBody ⟨["prog", "f.pdf"], true, ["x"], [], "y",
            some InterruptPoint.duringExtraction⟩ "f.pdf").1
          ++ [ProgAction.printInterrupted], false) :=
  ⟨by decide,
   interrupt_caught_anywhere
     ⟨["prog", "f.pdf"], true, ["x"], [], "y", some InterruptPoint.duringExtraction⟩
     (by decide) (by decide) (by decide) (by decide) rfl (by decide)⟩
